import Mathlib

set_option maxRecDepth 8000

/- Verification development for the Gomoku simulation-based move engine:
   src/gtp_connection.py (check_block_win, random_simulation, rules_simulation,
   the two candidate-scoring policies of genmove_cmd) and src/Gomoku3.py
   (the Gomoku3 class with genmove and simulate).  The board representation
   (simple_board / board_util) is an external collaborator of the engine and is
   modelled from the spec's Board Oracle contract. -/

/-- Stone colors, as in board_util (BLACK, WHITE, EMPTY, BORDER). -/
inductive Color where
  | empty
  | black
  | white
  | border
deriving DecidableEq, Repr

/-- GoBoardUtil.opponent: swaps black and white. -/
def Color.opponent : Color → Color
  | .black => .white
  | .white => .black
  | c => c

/-- A move is the index of a board point, or PASS (None in python). -/
abbrev Move := Option Nat

/-- The PASS sentinel of board_util. -/
def PASS : Move := none

/-- Modelled from the spec: the Board Oracle Position (simple_board is not one
    of the two source files): a grid of size*size cells in row-major order plus
    the side to move. -/
structure Board where
  size : Nat
  cells : List Color
  current_player : Color
deriving DecidableEq, Repr

/-- Cell at row r, column c; out-of-range reads give the BORDER sentinel. -/
def Board.cellAt (b : Board) (r c : Nat) : Color :=
  b.cells.getD (r * b.size + c) .border

/-- Modelled from the spec: five in a row for color col, in a row, a column or
    one of the two diagonal directions. -/
def Board.hasFive (b : Board) (col : Color) : Bool :=
  (List.range (b.size * b.size)).any fun i =>
    let r := i / b.size
    let c := i % b.size
    (decide (c + 4 < b.size) &&
      (List.range 5).all fun k => decide (b.cellAt r (c + k) = col)) ||
    (decide (r + 4 < b.size) &&
      (List.range 5).all fun k => decide (b.cellAt (r + k) c = col)) ||
    (decide (r + 4 < b.size) && decide (c + 4 < b.size) &&
      (List.range 5).all fun k => decide (b.cellAt (r + k) (c + k) = col)) ||
    (decide (r + 4 < b.size) && decide (4 ≤ c) &&
      (List.range 5).all fun k => decide (b.cellAt (r + k) (c - k) = col))

/-- Modelled from the spec: checkTerminal - (game over?, winner); the winner
    slot carries Color.empty when nobody has five in a row (a full-board draw
    is not reported here, matching gogui_rules_final_result_cmd which detects
    draws separately). -/
def Board.check_game_end_gomoku (b : Board) : Bool × Color :=
  if b.hasFive .white then (true, .white)
  else if b.hasFive .black then (true, .black)
  else (false, .empty)

/-- Modelled from the spec: legalMoves - the empty points in increasing index
    order (GoBoardUtil.generate_legal_moves_gomoku). -/
def generate_legal_moves_gomoku (b : Board) : List Move :=
  ((List.range (b.size * b.size)).filter
      fun i => decide (b.cells.getD i .border = .empty)).map
    fun i => some i

/-- Number of empty cells of the position. -/
def Board.emptyCount (b : Board) : Nat :=
  b.cells.countP fun c => decide (c = Color.empty)

/-- Modelled from the spec: applyMove - plays a move for a color when the
    target cell is empty (returning false and leaving the board unchanged
    otherwise) and hands the turn to the opponent. -/
def play_move_gomoku (m : Move) (color : Color) (b : Board) : Bool × Board :=
  match m with
  | none => (false, b)
  | some i =>
    if b.cells.getD i .border = .empty then
      (true, { b with cells := b.cells.set i color,
                      current_player := color.opponent })
    else (false, b)

/-- Modelled from the spec: randomLegalMove - PASS iff there is no legal move;
    the chooser ch stands for the random number generator
    (GoBoardUtil.generate_random_move_gomoku). -/
def generate_random_move_gomoku (b : Board) (ch : Board → Nat) : Move :=
  if (generate_legal_moves_gomoku b).isEmpty then PASS
  else
    (generate_legal_moves_gomoku b).getD
      (ch b % (generate_legal_moves_gomoku b).length) PASS

/-- Modelled from the spec: the three tactical pattern counters of the board
    (check_block_win_gomoku, check_open_four_gomoku,
    check_block_open_four_gomoku); their absolute values are
    implementation-defined and only relative comparisons matter, so they are
    parameters of the embedding. -/
structure PatternCounts where
  block_win : Board → Color → Nat
  open_four : Board → Color → Nat
  block_open_four : Board → Color → Nat

/-- The running state of check_block_win's scan over the candidate moves:
    the four move lists and the four sticky flags. -/
structure ScanState where
  win_moves : List Move
  block_win_moves : List Move
  open_four_moves : List Move
  block_open_four_moves : List Move
  found_win : Bool
  found_block_win : Bool
  found_open_four : Bool
  found_block_open_four : Bool
deriving DecidableEq, Repr

/-- All lists empty, all switches false. -/
def scanInit : ScanState := ⟨[], [], [], [], false, false, false, false⟩

/-- Step a of check_block_win's loop body (gtp_connection.py lines 531-535):
    if the probed move ends the game, append it to the win list and set
    found_win; this step is not gated by any flag. -/
def stepWin (gameEnd : Bool) (m : Move) (s : ScanState) : ScanState :=
  if gameEnd then { s with win_moves := s.win_moves ++ [m], found_win := true }
  else s

/-- Step b (lines 537-542): only while found_win is still false, append the
    move to the block-win list when the block-win count decreased. -/
def stepBlockWin (decreased : Bool) (m : Move) (s : ScanState) : ScanState :=
  if s.found_win = false then
    if decreased then
      { s with block_win_moves := s.block_win_moves ++ [m],
               found_block_win := true }
    else s
  else s

/-- Step c (lines 544-549): only while found_win and found_block_win are both
    still false, append the move to the open-four list when the open-four
    count increased. -/
def stepOpenFour (increased : Bool) (m : Move) (s : ScanState) : ScanState :=
  if s.found_win = false ∧ s.found_block_win = false then
    if increased then
      { s with open_four_moves := s.open_four_moves ++ [m],
               found_open_four := true }
    else s
  else s

/-- Step d (lines 552-557): only while the first three flags are all still
    false, append the move to the block-open-four list when the
    block-open-four count decreased. -/
def stepBlockOpenFour (decreased : Bool) (m : Move) (s : ScanState) :
    ScanState :=
  if s.found_win = false ∧ s.found_block_win = false ∧
      s.found_open_four = false then
    if decreased then
      { s with block_open_four_moves := s.block_open_four_moves ++ [m],
               found_block_open_four := true }
    else s
  else s

/-- One iteration of check_block_win's candidate loop
    (gtp_connection.py lines 524-559): the four steps in order, probing the
    move on a copy of the board.  The save/undo pair around the body pushes a
    copy and pops it back, leaving the scanned board unchanged, so the
    iteration is a pure state transformation. -/
def scanStep (cnts : PatternCounts) (b : Board) (color : Color)
    (origBlock origOpen origBlockOpen : Nat) (s : ScanState) (m : Move) :
    ScanState :=
  let board_copy := (play_move_gomoku m color b).2
  stepBlockOpenFour
    (decide (cnts.block_open_four board_copy color < origBlockOpen)) m
    (stepOpenFour (decide (origOpen < cnts.open_four board_copy color)) m
      (stepBlockWin (decide (cnts.block_win board_copy color < origBlock)) m
        (stepWin (board_copy.check_game_end_gomoku).1 m s)))

/-- The full candidate scan of check_block_win: a fold of scanStep over the
    legal moves, starting from the three baseline counts taken on a copy of
    the unmodified board. -/
def check_block_win_scan (cnts : PatternCounts) (b : Board) (color : Color) :
    ScanState :=
  (generate_legal_moves_gomoku b).foldl
    (scanStep cnts b color (cnts.block_win b color) (cnts.open_four b color)
      (cnts.block_open_four b color))
    scanInit

/-- gtp_connection.py check_block_win (lines 499-582): scan all candidates,
    then return the highest-priority nonempty tier, or "Random" with the full
    candidate list. -/
def check_block_win (cnts : PatternCounts) (b : Board)
    (colorArg : Option Color) : String × List Move :=
  let color := colorArg.getD b.current_player
  let moves := generate_legal_moves_gomoku b
  let s := check_block_win_scan cnts b color
  if s.found_win then ("Win", s.win_moves)
  else if s.found_block_win then ("BlockWin", s.block_win_moves)
  else if s.found_open_four then ("OpenFour", s.open_four_moves)
  else if s.found_block_open_four then ("BlockOpenFour", s.block_open_four_moves)
  else ("Random", moves)

/-- gtp_connection.py random_simulation (lines 593-614), with explicit fuel
    for the recursion and an explicit chooser for the random generator.  The
    result pairs the returned status with the final state of the board object
    the caller passed in: the function plays the chosen move on that object and
    recurses on a copy, so the recursive call's mutations are discarded, and
    the final pop from STACK only rebinds the local name.  Note the base case:
    when the game is over but the winner is not original_color, the code does
    not return and falls through to move generation. -/
def random_simulationF (fuel : Nat) (b : Board) (original_color color : Color)
    (ch : Board → Nat) : Option (Bool × Board) :=
  match fuel with
  | 0 => none
  | fuel + 1 =>
    let ge := b.check_game_end_gomoku
    if ge.1 = true ∧ ge.2 = original_color then some (true, b)
    else
      let move := generate_random_move_gomoku b ch
      if move = PASS then some (false, b)
      else
        let b1 := (play_move_gomoku move color b).2
        match random_simulationF fuel b1 original_color color.opponent ch with
        | none => none
        | some (status, _) => some (status, b1)

/-- gtp_connection.py rules_simulation (lines 617-646), with explicit fuel.
    moves.pop() takes the last element of the classifier's list.  The
    recursive call receives the same board object (there is no copy and no
    undo), so the final board of the call is the final board of the
    recursion. -/
def rules_simulationF (cnts : PatternCounts) (fuel : Nat) (b : Board)
    (original_color color : Color) : Option (Rat × Board) :=
  match fuel with
  | 0 => none
  | fuel + 1 =>
    let ge := b.check_game_end_gomoku
    if ge.1 = true then
      if ge.2 = original_color then some (1, b) else some (0, b)
    else
      let moves := (check_block_win cnts b (some color)).2
      match moves.getLast? with
      | none => some (1/2, b)
      | some move =>
        if move = PASS then some (1/2, b)
        else
          rules_simulationF cnts fuel (play_move_gomoku move color b).2
            original_color color.opponent

/-- The candidate-scoring loop of genmove_cmd's random policy
    (gtp_connection.py lines 274-281): ten playouts per candidate.  The body
    passes a copy of the root board with the acting color still to move; the
    candidate move is nowhere applied, so the count does not depend on it. -/
def randomPolicyWins (b : Board) (color : Color) (move : Move)
    (ch : Nat → Board → Nat) : Nat :=
  (List.range 10).countP fun i =>
    match random_simulationF (b.emptyCount + 1) b color color (ch i) with
    | some (status, _) => status
    | none => false

/-- Modelled from the spec: the Random policy as the spec states it - each of
    the ten playouts starts from a duplicate of the root with the candidate
    move pre-applied for the acting color, the opponent then being to move. -/
def randomPolicyWinsSpec (b : Board) (color : Color) (move : Move)
    (ch : Nat → Board → Nat) : Nat :=
  (List.range 10).countP fun i =>
    match random_simulationF (b.emptyCount + 1) (play_move_gomoku move color b).2
        color color.opponent (ch i) with
    | some (status, _) => status
    | none => false

/-- The best-candidate selection fold shared by both policies of genmove_cmd
    (gtp_connection.py lines 272-302): best_move starts as None and is set to
    the first candidate before any comparison, best_ratio starts at 0, and a
    candidate replaces the current best only when its win rate is strictly
    greater than best_ratio. -/
def selectBest (moves : List Move) (rate : Move → Rat) : Option Move × Rat :=
  moves.foldl
    (fun acc m =>
      let best := if acc.1 = none then some m else acc.1
      if acc.2 < rate m then (some m, rate m) else (best, acc.2))
    (none, 0)

/-- genmove_cmd's random policy, assembled from the pieces above. -/
def genmove_random (b : Board) (color : Color) (ch : Nat → Board → Nat) :
    Option Move × Rat :=
  selectBest (generate_legal_moves_gomoku b)
    fun m => (randomPolicyWins b color m ch : Rat) / 10

/-- The candidate-scoring loop of genmove_cmd's rule_based policy
    (gtp_connection.py lines 290-298): commit the candidate on a copy, then sum
    the outcomes of ten rule-guided playouts started from a fresh copy with the
    opponent to move. -/
def rulePolicyScore (cnts : PatternCounts) (b : Board) (color : Color)
    (move : Move) : Rat :=
  let temp_board := (play_move_gomoku move color b).2
  (List.range 10).foldl
    (fun wins _ =>
      wins +
        match rules_simulationF cnts (temp_board.emptyCount + 1) temp_board
            color color.opponent with
        | some (outcome, _) => outcome
        | none => 0)
    0

/-- genmove_cmd's rule_based policy, assembled from the pieces above. -/
def genmove_rule (cnts : PatternCounts) (b : Board) (color : Color) :
    Option Move × Rat :=
  selectBest (generate_legal_moves_gomoku b)
    fun m => rulePolicyScore cnts b color m / 10

/-- board_util color code. -/
def BLACK : Nat := 1

/-- board_util color code. -/
def WHITE : Nat := 2

/-- board_util color code. -/
def EMPTY : Nat := 0

/-- Modelled from the spec: the move-numbered position contract used by
    Gomoku3.simulate (moveCount, rewindTo, undoLastMove): the move history in
    order, plus the side that moves first. -/
structure GoState where
  history : List Nat
  toPlayFirst : Nat
deriving DecidableEq, Repr

/-- moveNumber(): how many moves have been played. -/
def GoState.moveNumber (s : GoState) : Nat := s.history.length

/-- play(move): append the move to the history. -/
def GoState.play (s : GoState) (m : Nat) : GoState :=
  { s with history := s.history ++ [m] }

/-- resetToMoveNumber(n): rewind the history to its first n moves. -/
def GoState.resetToMoveNumber (s : GoState) (n : Nat) : GoState :=
  { s with history := s.history.take n }

/-- undoMove(): retract the last move. -/
def GoState.undoMove (s : GoState) : GoState :=
  { s with history := s.history.dropLast }

/-- toPlay: the side to move alternates with the move count. -/
def GoState.toPlay (s : GoState) : Nat :=
  if s.history.length % 2 = 0 then s.toPlayFirst
  else if s.toPlayFirst = BLACK then WHITE else BLACK

/-- Gomoku3.simulate (Gomoku3.py lines 28-42).  The board's own rollout
    state.simulate() is external to the two source files and is passed in as
    simFn; numSimulations is the value the self.numSimulations attribute read
    resolves to - whether that read resolves at all on a real Gomoku3 instance
    is settled separately with the attribute-level model of genmove.  The
    result pairs the final state of the caller's position with the returned
    evaluation. -/
def Gomoku3.simulate (numSimulations : Nat) (simFn : GoState → Nat × GoState)
    (state : GoState) (move : Nat) : GoState × Rat :=
  let state := state.play move
  let moveNr := state.moveNumber
  let run := (List.range numSimulations).foldl
    (fun (acc : List Nat × GoState) _ =>
      let winner := (simFn acc.2).1
      let s1 := (simFn acc.2).2
      let stats := acc.1.set winner (acc.1.getD winner 0 + 1)
      (stats, s1.resetToMoveNumber moveNr))
    ([0, 0, 0], state)
  let state := run.2.undoMove
  let score : Rat :=
    ((run.1.getD BLACK 0 : Rat) + (1/2) * (run.1.getD EMPTY 0 : Rat)) /
      (numSimulations : Rat)
  let score := if state.toPlay = WHITE then 1 - score else score
  (state, score)

/-- The attribute names that class Gomoku3 defines (Gomoku3.py lines 7-42):
    the class attribute numSims and the three methods.  The class has no base
    class and instances are given no further attributes. -/
def gomoku3ClassAttrs : List String := ["numSims", "name", "genmove", "simulate"]

/-- Attribute lookup on a Gomoku3 instance: AttributeError when the name is
    not defined by the class. -/
def gomoku3Getattr (attrName : String) : Except String Unit :=
  if attrName ∈ gomoku3ClassAttrs then Except.ok ()
  else Except.error ("AttributeError: " ++ attrName)

/-- Gomoku3.genmove (Gomoku3.py lines 13-26) at the attribute level: each
    self.x access in the order the body performs them must resolve on the
    instance, and execution stops at the first failing lookup, exactly as in
    python.  The first statement is assert not self.check_game_end_gomoku(),
    whose lookup already fails; the later lines would read self.board, call
    self.simulate and, inside it, read self.numSimulations. -/
def Gomoku3.genmove : Except String Unit := do
  gomoku3Getattr "check_game_end_gomoku"
  gomoku3Getattr "board"
  gomoku3Getattr "simulate"
  gomoku3Getattr "numSimulations"
  Except.ok ()

/-- A 5 by 5 test position: Black has four in a row on the bottom row
    (points 20-23) with the completion at point 24; the only other empty point
    is point 0; no five in a row is present anywhere. -/
def cbWin : Board :=
  { size := 5
    cells :=
      [.empty, .black, .white, .white, .black,
       .white, .white, .black, .black, .white,
       .black, .black, .white, .white, .black,
       .white, .white, .black, .black, .white,
       .black, .black, .black, .black, .empty]
    current_player := .black }

/-- A 5 by 5 terminal position: Black already has five in a row on the top
    row, White has four in a row on the bottom row with the completion at
    point 24, the only empty point. -/
def cbTerm : Board :=
  { size := 5
    cells :=
      [.black, .black, .black, .black, .black,
       .white, .white, .black, .black, .white,
       .black, .black, .white, .white, .black,
       .white, .white, .black, .black, .white,
       .white, .white, .white, .white, .empty]
    current_player := .white }

/-- A 5 by 5 test position where the first legal move (point 4) completes
    Black's four on the top row and a second legal move (point 24) comes later
    in the candidate order. -/
def cbA : Board :=
  { size := 5
    cells :=
      [.black, .black, .black, .black, .empty,
       .white, .white, .black, .black, .white,
       .black, .black, .white, .white, .black,
       .white, .white, .black, .black, .white,
       .black, .black, .white, .white, .empty]
    current_player := .black }

/-- Pattern counters that count nothing; any instance works for the
    scan-structure claims. -/
def cnts0 : PatternCounts := ⟨fun _ _ => 0, fun _ _ => 0, fun _ _ => 0⟩

/-- A chooser that always takes the first legal move. -/
def chFirst : Board → Nat := fun _ => 0

/-- A per-playout family of first-legal-move choosers. -/
def chTen : Nat → Board → Nat := fun _ _ => 0

/-- A rollout for the GoState witness: plays point 9 and reports winner 1. -/
def simFnW : GoState → Nat × GoState :=
  fun t => (1, { history := t.history ++ [9], toPlayFirst := t.toPlayFirst })

/-- The running best of the tie-break fold, seen from a current best: each
    later candidate replaces it only when its rate is strictly greater. -/
def firstMaxAux (rate : Move → Rat) (best : Move) (l : List Move) : Move :=
  l.foldl (fun acc m => if rate acc < rate m then m else acc) best

/-- The opponent of a non-empty color is non-empty. -/
theorem Color.opponent_ne_empty {c : Color} (h : c ≠ .empty) :
    c.opponent ≠ .empty := by
  cases c <;> simp_all [Color.opponent]

/-- Characterization of the legal move list. -/
theorem mem_legal_iff (b : Board) (m : Move) :
    m ∈ generate_legal_moves_gomoku b ↔
      ∃ i, m = some i ∧ i < b.size * b.size ∧
        b.cells.getD i .border = .empty := by
  unfold generate_legal_moves_gomoku
  simp only [List.mem_map, List.mem_filter, List.mem_range, decide_eq_true_eq]
  constructor
  · rintro ⟨i, ⟨hlt, he⟩, rfl⟩
    exact ⟨i, rfl, hlt, he⟩
  · rintro ⟨i, rfl, hlt, he⟩
    exact ⟨i, ⟨hlt, he⟩, rfl⟩

/-- The legal move list has no duplicates. -/
theorem legal_nodup (b : Board) : (generate_legal_moves_gomoku b).Nodup := by
  unfold generate_legal_moves_gomoku
  exact (((List.nodup_range _).filter _).map (Option.some_injective Nat))

/-- Setting a cell that was empty to a non-empty color strictly decreases the
    number of empty cells. -/
theorem countP_set_lt (l : List Color) (i : Nat) (c : Color)
    (hi : l.getD i .border = .empty) (hc : c ≠ .empty) :
    (l.set i c).countP (fun x => decide (x = Color.empty)) <
      l.countP (fun x => decide (x = Color.empty)) := by
  induction l generalizing i with
  | nil => simp [List.getD] at hi
  | cons a t ih =>
    cases i with
    | zero =>
      simp only [List.getD, List.getElem?_cons_zero, Option.getD_some] at hi
      subst hi
      simp only [List.set, List.countP_cons]
      rw [if_neg (by simp [hc]), if_pos (by simp)]
      omega
    | succ j =>
      simp only [List.getD, List.getElem?_cons_succ] at hi
      have := ih j hi
      simp only [List.set, List.countP_cons]
      omega

/-- Overwriting an empty cell never increases the number of empty cells. -/
theorem countP_set_le (l : List Color) (i : Nat) (c : Color)
    (hi : l.getD i .border = .empty) :
    (l.set i c).countP (fun x => decide (x = Color.empty)) ≤
      l.countP (fun x => decide (x = Color.empty)) := by
  induction l generalizing i with
  | nil => simp [List.getD] at hi
  | cons a t ih =>
    cases i with
    | zero =>
      simp only [List.getD, List.getElem?_cons_zero, Option.getD_some] at hi
      subst hi
      simp only [List.set, List.countP_cons]
      split <;> simp <;> omega
    | succ j =>
      simp only [List.getD, List.getElem?_cons_succ] at hi
      have := ih j hi
      simp only [List.set, List.countP_cons]
      omega

/-- Playing any move never increases the number of empty cells. -/
theorem play_emptyCount_le (m : Move) (color : Color) (b : Board) :
    ((play_move_gomoku m color b).2).emptyCount ≤ b.emptyCount := by
  cases m with
  | none => simp [play_move_gomoku]
  | some i =>
    simp only [play_move_gomoku]
    split
    · exact countP_set_le b.cells i color (by assumption)
    · exact Nat.le_refl _

/-- Playing a legal move for a non-empty color strictly decreases the number
    of empty cells. -/
theorem play_emptyCount_lt (m : Move) (color : Color) (b : Board)
    (hm : m ∈ generate_legal_moves_gomoku b) (hc : color ≠ .empty) :
    ((play_move_gomoku m color b).2).emptyCount < b.emptyCount := by
  obtain ⟨i, rfl, _, he⟩ := (mem_legal_iff b m).1 hm
  simp only [play_move_gomoku]
  rw [if_pos he]
  exact countP_set_lt b.cells i color he hc

/-- A non-PASS result of the random move generator is a legal move. -/
theorem random_move_mem (b : Board) (ch : Board → Nat)
    (h : generate_random_move_gomoku b ch ≠ PASS) :
    generate_random_move_gomoku b ch ∈ generate_legal_moves_gomoku b := by
  unfold generate_random_move_gomoku at h ⊢
  cases hls : generate_legal_moves_gomoku b with
  | nil =>
    rw [hls] at h
    simp at h
  | cons x xs =>
    simp only [List.isEmpty_cons, Bool.false_eq_true, if_false]
    have hmod : ch b % (x :: xs).length < (x :: xs).length :=
      Nat.mod_lt _ (by simp)
    rw [List.getD_eq_getElem?_getD, List.getElem?_eq_getElem hmod,
      Option.getD_some]
    exact List.getElem_mem hmod

@[simp] theorem stepWin_block_win_moves (ge : Bool) (m : Move) (s : ScanState) :
    (stepWin ge m s).block_win_moves = s.block_win_moves := by
  unfold stepWin; split <;> rfl

@[simp] theorem stepWin_open_four_moves (ge : Bool) (m : Move) (s : ScanState) :
    (stepWin ge m s).open_four_moves = s.open_four_moves := by
  unfold stepWin; split <;> rfl

@[simp] theorem stepWin_block_open_four_moves (ge : Bool) (m : Move)
    (s : ScanState) :
    (stepWin ge m s).block_open_four_moves = s.block_open_four_moves := by
  unfold stepWin; split <;> rfl

@[simp] theorem stepWin_found_block_win (ge : Bool) (m : Move) (s : ScanState) :
    (stepWin ge m s).found_block_win = s.found_block_win := by
  unfold stepWin; split <;> rfl

@[simp] theorem stepWin_found_open_four (ge : Bool) (m : Move) (s : ScanState) :
    (stepWin ge m s).found_open_four = s.found_open_four := by
  unfold stepWin; split <;> rfl

@[simp] theorem stepWin_found_block_open_four (ge : Bool) (m : Move)
    (s : ScanState) :
    (stepWin ge m s).found_block_open_four = s.found_block_open_four := by
  unfold stepWin; split <;> rfl

@[simp] theorem stepBlockWin_win_moves (d : Bool) (m : Move) (s : ScanState) :
    (stepBlockWin d m s).win_moves = s.win_moves := by
  unfold stepBlockWin; split <;> first | rfl | (split <;> rfl)

@[simp] theorem stepBlockWin_open_four_moves (d : Bool) (m : Move)
    (s : ScanState) :
    (stepBlockWin d m s).open_four_moves = s.open_four_moves := by
  unfold stepBlockWin; split <;> first | rfl | (split <;> rfl)

@[simp] theorem stepBlockWin_block_open_four_moves (d : Bool) (m : Move)
    (s : ScanState) :
    (stepBlockWin d m s).block_open_four_moves = s.block_open_four_moves := by
  unfold stepBlockWin; split <;> first | rfl | (split <;> rfl)

@[simp] theorem stepBlockWin_found_win (d : Bool) (m : Move) (s : ScanState) :
    (stepBlockWin d m s).found_win = s.found_win := by
  unfold stepBlockWin; split <;> first | rfl | (split <;> rfl)

@[simp] theorem stepBlockWin_found_open_four (d : Bool) (m : Move)
    (s : ScanState) :
    (stepBlockWin d m s).found_open_four = s.found_open_four := by
  unfold stepBlockWin; split <;> first | rfl | (split <;> rfl)

@[simp] theorem stepBlockWin_found_block_open_four (d : Bool) (m : Move)
    (s : ScanState) :
    (stepBlockWin d m s).found_block_open_four = s.found_block_open_four := by
  unfold stepBlockWin; split <;> first | rfl | (split <;> rfl)

@[simp] theorem stepOpenFour_win_moves (d : Bool) (m : Move) (s : ScanState) :
    (stepOpenFour d m s).win_moves = s.win_moves := by
  unfold stepOpenFour; split <;> first | rfl | (split <;> rfl)

@[simp] theorem stepOpenFour_block_win_moves (d : Bool) (m : Move)
    (s : ScanState) :
    (stepOpenFour d m s).block_win_moves = s.block_win_moves := by
  unfold stepOpenFour; split <;> first | rfl | (split <;> rfl)

@[simp] theorem stepOpenFour_block_open_four_moves (d : Bool) (m : Move)
    (s : ScanState) :
    (stepOpenFour d m s).block_open_four_moves = s.block_open_four_moves := by
  unfold stepOpenFour; split <;> first | rfl | (split <;> rfl)

@[simp] theorem stepOpenFour_found_win (d : Bool) (m : Move) (s : ScanState) :
    (stepOpenFour d m s).found_win = s.found_win := by
  unfold stepOpenFour; split <;> first | rfl | (split <;> rfl)

@[simp] theorem stepOpenFour_found_block_win (d : Bool) (m : Move)
    (s : ScanState) :
    (stepOpenFour d m s).found_block_win = s.found_block_win := by
  unfold stepOpenFour; split <;> first | rfl | (split <;> rfl)

@[simp] theorem stepOpenFour_found_block_open_four (d : Bool) (m : Move)
    (s : ScanState) :
    (stepOpenFour d m s).found_block_open_four = s.found_block_open_four := by
  unfold stepOpenFour; split <;> first | rfl | (split <;> rfl)

@[simp] theorem stepBlockOpenFour_win_moves (d : Bool) (m : Move)
    (s : ScanState) :
    (stepBlockOpenFour d m s).win_moves = s.win_moves := by
  unfold stepBlockOpenFour; split <;> first | rfl | (split <;> rfl)

@[simp] theorem stepBlockOpenFour_block_win_moves (d : Bool) (m : Move)
    (s : ScanState) :
    (stepBlockOpenFour d m s).block_win_moves = s.block_win_moves := by
  unfold stepBlockOpenFour; split <;> first | rfl | (split <;> rfl)

@[simp] theorem stepBlockOpenFour_open_four_moves (d : Bool) (m : Move)
    (s : ScanState) :
    (stepBlockOpenFour d m s).open_four_moves = s.open_four_moves := by
  unfold stepBlockOpenFour; split <;> first | rfl | (split <;> rfl)

@[simp] theorem stepBlockOpenFour_found_win (d : Bool) (m : Move)
    (s : ScanState) :
    (stepBlockOpenFour d m s).found_win = s.found_win := by
  unfold stepBlockOpenFour; split <;> first | rfl | (split <;> rfl)

@[simp] theorem stepBlockOpenFour_found_block_win (d : Bool) (m : Move)
    (s : ScanState) :
    (stepBlockOpenFour d m s).found_block_win = s.found_block_win := by
  unfold stepBlockOpenFour; split <;> first | rfl | (split <;> rfl)

@[simp] theorem stepBlockOpenFour_found_open_four (d : Bool) (m : Move)
    (s : ScanState) :
    (stepBlockOpenFour d m s).found_open_four = s.found_open_four := by
  unfold stepBlockOpenFour; split <;> first | rfl | (split <;> rfl)

/-- stepWin keeps found_win once it is set. -/
theorem stepWin_found_win_mono (ge : Bool) (m : Move) (s : ScanState)
    (h : s.found_win = true) : (stepWin ge m s).found_win = true := by
  unfold stepWin; split
  · rfl
  · exact h

/-- stepWin with a game-ending probe appends the move and sets found_win. -/
theorem stepWin_of_true (m : Move) (s : ScanState) :
    stepWin true m s =
      { s with win_moves := s.win_moves ++ [m], found_win := true } := by
  unfold stepWin; rfl

/-- Old win-list entries survive stepWin. -/
theorem stepWin_win_mono (ge : Bool) (m : Move) (s : ScanState) (x : Move)
    (hx : x ∈ s.win_moves) : x ∈ (stepWin ge m s).win_moves := by
  unfold stepWin; split
  · simp [hx]
  · exact hx

/-- A win-list entry of stepWin is an old entry or the probed move. -/
theorem stepWin_win_mem (ge : Bool) (m : Move) (s : ScanState) (x : Move)
    (hx : x ∈ (stepWin ge m s).win_moves) : x ∈ s.win_moves ∨ x = m := by
  unfold stepWin at hx; split at hx
  · simpa using hx
  · exact Or.inl hx

/-- Once found_win holds, step b is the identity (the gate of lines 537-542). -/
theorem stepBlockWin_id (d : Bool) (m : Move) (s : ScanState)
    (h : s.found_win = true) : stepBlockWin d m s = s := by
  unfold stepBlockWin; rw [if_neg (by simp [h])]

/-- Once found_win holds, step c is the identity. -/
theorem stepOpenFour_id (d : Bool) (m : Move) (s : ScanState)
    (h : s.found_win = true) : stepOpenFour d m s = s := by
  unfold stepOpenFour; rw [if_neg (by simp [h])]

/-- Once found_win holds, step d is the identity. -/
theorem stepBlockOpenFour_id (d : Bool) (m : Move) (s : ScanState)
    (h : s.found_win = true) : stepBlockOpenFour d m s = s := by
  unfold stepBlockOpenFour; rw [if_neg (by simp [h])]

/-- A block-win entry of step b is an old entry or the probed move. -/
theorem stepBlockWin_block_mem (d : Bool) (m : Move) (s : ScanState) (x : Move)
    (hx : x ∈ (stepBlockWin d m s).block_win_moves) :
    x ∈ s.block_win_moves ∨ x = m := by
  unfold stepBlockWin at hx
  split at hx
  · split at hx
    · simpa using hx
    · exact Or.inl hx
  · exact Or.inl hx

/-- An open-four entry of step c is an old entry or the probed move. -/
theorem stepOpenFour_open_mem (d : Bool) (m : Move) (s : ScanState) (x : Move)
    (hx : x ∈ (stepOpenFour d m s).open_four_moves) :
    x ∈ s.open_four_moves ∨ x = m := by
  unfold stepOpenFour at hx
  split at hx
  · split at hx
    · simpa using hx
    · exact Or.inl hx
  · exact Or.inl hx

/-- A block-open-four entry of step d is an old entry or the probed move. -/
theorem stepBlockOpenFour_bof_mem (d : Bool) (m : Move) (s : ScanState)
    (x : Move) (hx : x ∈ (stepBlockOpenFour d m s).block_open_four_moves) :
    x ∈ s.block_open_four_moves ∨ x = m := by
  unfold stepBlockOpenFour at hx
  split at hx
  · split at hx
    · simpa using hx
    · exact Or.inl hx
  · exact Or.inl hx

/-- Once the found-win switch is on, a whole loop iteration reduces to the
    ungated winning-move check: steps b, c and d are all skipped. -/
theorem scanStep_of_found_win (cnts : PatternCounts) (b : Board) (color : Color)
    (ob oo obo : Nat) (s : ScanState) (m : Move) (h : s.found_win = true) :
    scanStep cnts b color ob oo obo s m =
      stepWin ((play_move_gomoku m color b).2.check_game_end_gomoku).1 m s := by
  simp only [scanStep]
  rw [stepBlockWin_id _ _ _ (stepWin_found_win_mono _ _ _ h),
    stepOpenFour_id _ _ _ (stepWin_found_win_mono _ _ _ h),
    stepBlockOpenFour_id _ _ _ (stepWin_found_win_mono _ _ _ h)]

/-- Once found_win is set, the rest of the scan keeps it set and never touches
    the block-win, open-four and block-open-four lists. -/
theorem scan_foldl_of_found_win (cnts : PatternCounts) (b : Board)
    (color : Color) (ob oo obo : Nat) :
    ∀ (l : List Move) (s : ScanState), s.found_win = true →
      ((l.foldl (scanStep cnts b color ob oo obo) s).found_win = true ∧
       (l.foldl (scanStep cnts b color ob oo obo) s).block_win_moves =
         s.block_win_moves ∧
       (l.foldl (scanStep cnts b color ob oo obo) s).open_four_moves =
         s.open_four_moves ∧
       (l.foldl (scanStep cnts b color ob oo obo) s).block_open_four_moves =
         s.block_open_four_moves) := by
  intro l
  induction l with
  | nil => intro s h; exact ⟨h, rfl, rfl, rfl⟩
  | cons a t ih =>
    intro s h
    simp only [List.foldl_cons]
    rw [scanStep_of_found_win cnts b color ob oo obo s a h]
    obtain ⟨f1, f2, f3, f4⟩ := ih _ (stepWin_found_win_mono _ _ _ h)
    refine ⟨f1, ?_, ?_, ?_⟩
    · rw [f2]; simp
    · rw [f3]; simp
    · rw [f4]; simp

/-- A block-win entry produced by folding part of the scan comes from the
    starting state or from the processed moves; likewise for the open-four and
    block-open-four lists and for the win list. -/
theorem scan_foldl_mem (cnts : PatternCounts) (b : Board) (color : Color)
    (ob oo obo : Nat) :
    ∀ (l : List Move) (s : ScanState) (x : Move),
      ((x ∈ (l.foldl (scanStep cnts b color ob oo obo) s).win_moves →
          x ∈ s.win_moves ∨ x ∈ l) ∧
       (x ∈ (l.foldl (scanStep cnts b color ob oo obo) s).block_win_moves →
          x ∈ s.block_win_moves ∨ x ∈ l) ∧
       (x ∈ (l.foldl (scanStep cnts b color ob oo obo) s).open_four_moves →
          x ∈ s.open_four_moves ∨ x ∈ l) ∧
       (x ∈ (l.foldl (scanStep cnts b color ob oo obo) s).block_open_four_moves →
          x ∈ s.block_open_four_moves ∨ x ∈ l)) := by
  intro l
  induction l with
  | nil => intro s x; exact ⟨fun h => Or.inl h, fun h => Or.inl h,
      fun h => Or.inl h, fun h => Or.inl h⟩
  | cons a t ih =>
    intro s x
    simp only [List.foldl_cons]
    obtain ⟨i1, i2, i3, i4⟩ := ih (scanStep cnts b color ob oo obo s a) x
    refine ⟨fun h => ?_, fun h => ?_, fun h => ?_, fun h => ?_⟩
    · rcases i1 h with h1 | h1
      · simp only [scanStep] at h1
        simp only [stepBlockOpenFour_win_moves, stepOpenFour_win_moves,
          stepBlockWin_win_moves] at h1
        rcases stepWin_win_mem _ _ _ _ h1 with h2 | h2
        · exact Or.inl h2
        · exact Or.inr (by simp [h2])
      · exact Or.inr (by simp [h1])
    · rcases i2 h with h1 | h1
      · simp only [scanStep] at h1
        simp only [stepBlockOpenFour_block_win_moves,
          stepOpenFour_block_win_moves] at h1
        rcases stepBlockWin_block_mem _ _ _ _ h1 with h2 | h2
        · simp only [stepWin_block_win_moves] at h2
          exact Or.inl h2
        · exact Or.inr (by simp [h2])
      · exact Or.inr (by simp [h1])
    · rcases i3 h with h1 | h1
      · simp only [scanStep] at h1
        simp only [stepBlockOpenFour_open_four_moves] at h1
        rcases stepOpenFour_open_mem _ _ _ _ h1 with h2 | h2
        · simp only [stepBlockWin_open_four_moves,
            stepWin_open_four_moves] at h2
          exact Or.inl h2
        · exact Or.inr (by simp [h2])
      · exact Or.inr (by simp [h1])
    · rcases i4 h with h1 | h1
      · simp only [scanStep] at h1
        rcases stepBlockOpenFour_bof_mem _ _ _ _ h1 with h2 | h2
        · simp only [stepOpenFour_block_open_four_moves,
            stepBlockWin_block_open_four_moves,
            stepWin_block_open_four_moves] at h2
          exact Or.inl h2
        · exact Or.inr (by simp [h2])
      · exact Or.inr (by simp [h1])

/-- A loop iteration whose probe ends the game appends the move to the win
    list, sets found_win, and leaves the three gated lists untouched (the
    gates see the flag already set within the same iteration). -/
theorem scanStep_of_game_end (cnts : PatternCounts) (b : Board) (color : Color)
    (ob oo obo : Nat) (s : ScanState) (m : Move)
    (h : ((play_move_gomoku m color b).2.check_game_end_gomoku).1 = true) :
    (scanStep cnts b color ob oo obo s m).found_win = true ∧
    (scanStep cnts b color ob oo obo s m).block_win_moves =
      s.block_win_moves ∧
    (scanStep cnts b color ob oo obo s m).open_four_moves =
      s.open_four_moves ∧
    (scanStep cnts b color ob oo obo s m).block_open_four_moves =
      s.block_open_four_moves ∧
    (scanStep cnts b color ob oo obo s m).win_moves =
      s.win_moves ++ [m] := by
  simp only [scanStep]
  rw [h, stepWin_of_true]
  rw [stepBlockWin_id _ _ _ rfl, stepOpenFour_id _ _ _ rfl,
    stepBlockOpenFour_id _ _ _ rfl]
  exact ⟨rfl, rfl, rfl, rfl, rfl⟩

/-- Old win-list entries survive any stretch of the scan. -/
theorem scan_foldl_win_mono (cnts : PatternCounts) (b : Board) (color : Color)
    (ob oo obo : Nat) :
    ∀ (l : List Move) (s : ScanState) (x : Move), x ∈ s.win_moves →
      x ∈ (l.foldl (scanStep cnts b color ob oo obo) s).win_moves := by
  intro l
  induction l with
  | nil => intro s x hx; exact hx
  | cons a t ih =>
    intro s x hx
    simp only [List.foldl_cons]
    apply ih
    simp only [scanStep, stepBlockOpenFour_win_moves, stepOpenFour_win_moves,
      stepBlockWin_win_moves]
    exact stepWin_win_mono _ _ _ _ hx

/-- C3: sticky-flag scan-order property of check_block_win.  If an earlier
    candidate A makes the probe report game over (setting found-win), then a
    later candidate B never enters the block-win, open-four or block-open-four
    lists - even if it would independently qualify - and the returned category
    is Win. -/
theorem check_block_win_sticky_flag_skips_later_candidates
    (cnts : PatternCounts) (b : Board) (c : Color) (A B : Move)
    (l1 l2 : List Move)
    (hsplit : generate_legal_moves_gomoku b = l1 ++ A :: l2)
    (hB : B ∈ l2)
    (hwin : ((play_move_gomoku A c b).2.check_game_end_gomoku).1 = true) :
    B ∉ (check_block_win_scan cnts b c).block_win_moves ∧
    B ∉ (check_block_win_scan cnts b c).open_four_moves ∧
    B ∉ (check_block_win_scan cnts b c).block_open_four_moves ∧
    (check_block_win cnts b (some c)).1 = "Win" := by
  have hnodup := legal_nodup b
  rw [hsplit, List.nodup_append] at hnodup
  have hBl1 : B ∉ l1 := fun hmem => hnodup.2.2 hmem (by simp [hB])
  unfold check_block_win_scan check_block_win
  simp only [Option.getD_some]
  rw [hsplit, List.foldl_append, List.foldl_cons]
  have hstepA := scanStep_of_game_end cnts b c (cnts.block_win b c)
    (cnts.open_four b c) (cnts.block_open_four b c)
    (l1.foldl (scanStep cnts b c (cnts.block_win b c) (cnts.open_four b c)
      (cnts.block_open_four b c)) scanInit) A hwin
  have hrest := scan_foldl_of_found_win cnts b c (cnts.block_win b c)
    (cnts.open_four b c) (cnts.block_open_four b c) l2 _ hstepA.1
  have hmemInit := scan_foldl_mem cnts b c (cnts.block_win b c)
    (cnts.open_four b c) (cnts.block_open_four b c) l1 scanInit B
  refine ⟨?_, ?_, ?_, ?_⟩
  · rw [hrest.2.1, hstepA.2.1]
    intro hmem
    rcases hmemInit.2.1 hmem with h | h
    · simp [scanInit] at h
    · exact hBl1 h
  · rw [hrest.2.2.1, hstepA.2.2.1]
    intro hmem
    rcases hmemInit.2.2.1 hmem with h | h
    · simp [scanInit] at h
    · exact hBl1 h
  · rw [hrest.2.2.2, hstepA.2.2.2.1]
    intro hmem
    rcases hmemInit.2.2.2 hmem with h | h
    · simp [scanInit] at h
    · exact hBl1 h
  · have hfw : (check_block_win_scan cnts b c).found_win = true := by
      unfold check_block_win_scan
      rw [hsplit, List.foldl_append, List.foldl_cons]
      exact hrest.1
    rw [if_pos hfw]

/-- Closed instance of the sticky-flag property on the board cbA: point 4 wins
    for Black and is scanned before point 24, so point 24 is excluded from the
    three gated lists and the category is Win. -/
theorem check_block_win_sticky_flag_skips_later_candidates_witness :
    some 24 ∉ (check_block_win_scan cnts0 cbA .black).block_win_moves ∧
    some 24 ∉ (check_block_win_scan cnts0 cbA .black).open_four_moves ∧
    some 24 ∉ (check_block_win_scan cnts0 cbA .black).block_open_four_moves ∧
    (check_block_win cnts0 cbA (some .black)).1 = "Win" :=
  check_block_win_sticky_flag_skips_later_candidates cnts0 cbA .black
    (some 4) (some 24) [] [some 24] (by decide) (by decide) (by decide)

/-- C4: on a non-terminal position with an immediately winning legal move for
    the given color, check_block_win returns category Win, and the returned
    list contains every legal candidate whose application makes that color win
    immediately: the winning-move check of the scan is not gated by any
    flag. -/
theorem check_block_win_collects_all_winning_moves
    (cnts : PatternCounts) (b : Board) (c : Color)
    (hterm : (b.check_game_end_gomoku).1 = false)
    (hex : ∃ m, m ∈ generate_legal_moves_gomoku b ∧
      (play_move_gomoku m c b).2.check_game_end_gomoku = (true, c)) :
    (check_block_win cnts b (some c)).1 = "Win" ∧
    ∀ m, m ∈ generate_legal_moves_gomoku b →
      (play_move_gomoku m c b).2.check_game_end_gomoku = (true, c) →
      m ∈ (check_block_win cnts b (some c)).2 := by
  obtain ⟨m0, hm0, hw0⟩ := hex
  have hge0 : ((play_move_gomoku m0 c b).2.check_game_end_gomoku).1 = true := by
    rw [hw0]
  have hfw : (check_block_win_scan cnts b c).found_win = true := by
    obtain ⟨u1, u2, hu⟩ := List.append_of_mem hm0
    unfold check_block_win_scan
    rw [hu, List.foldl_append, List.foldl_cons]
    exact (scan_foldl_of_found_win cnts b c _ _ _ u2 _
      (scanStep_of_game_end cnts b c _ _ _ _ m0 hge0).1).1
  constructor
  · unfold check_block_win
    simp only [Option.getD_some]
    rw [if_pos hfw]
  · intro m hm hwm
    have hgem : ((play_move_gomoku m c b).2.check_game_end_gomoku).1 = true := by
      rw [hwm]
    unfold check_block_win
    simp only [Option.getD_some]
    rw [if_pos hfw]
    show m ∈ (check_block_win_scan cnts b c).win_moves
    obtain ⟨u1, u2, hu⟩ := List.append_of_mem hm
    unfold check_block_win_scan
    rw [hu, List.foldl_append, List.foldl_cons]
    apply scan_foldl_win_mono
    rw [(scanStep_of_game_end cnts b c _ _ _ _ m hgem).2.2.2.2]
    simp

/-- Closed instance of the winning-move collection property on the board
    cbWin: point 24 completes Black's five on the bottom row. -/
theorem check_block_win_collects_all_winning_moves_witness :
    (check_block_win cnts0 cbWin (some .black)).1 = "Win" ∧
    ∀ m, m ∈ generate_legal_moves_gomoku cbWin →
      (play_move_gomoku m .black cbWin).2.check_game_end_gomoku =
        (true, .black) →
      m ∈ (check_block_win cnts0 cbWin (some .black)).2 :=
  check_block_win_collects_all_winning_moves cnts0 cbWin .black (by decide)
    ⟨some 24, by decide, by decide⟩

/-- On a non-terminal position with an empty classifier list, rules_simulation
    returns one half and leaves the position untouched. -/
theorem rules_simulationF_empty (cnts : PatternCounts) (fuel : Nat) (b : Board)
    (oc c : Color) (hterm : (b.check_game_end_gomoku).1 = false)
    (hnil : (check_block_win cnts b (some c)).2 = []) :
    rules_simulationF cnts (fuel + 1) b oc c = some (1/2, b) := by
  simp only [rules_simulationF, hterm, Bool.false_eq_true, if_false, hnil,
    List.getLast?_nil]

/-- On a non-terminal position whose selected move (the last of the list) is
    PASS, rules_simulation returns one half and leaves the position
    untouched. -/
theorem rules_simulationF_pass (cnts : PatternCounts) (fuel : Nat) (b : Board)
    (oc c : Color) (ms : List Move) (m : Move)
    (hterm : (b.check_game_end_gomoku).1 = false)
    (hms : (check_block_win cnts b (some c)).2 = ms ++ [m]) (hp : m = PASS) :
    rules_simulationF cnts (fuel + 1) b oc c = some (1/2, b) := by
  simp only [rules_simulationF, hterm, Bool.false_eq_true, if_false, hms,
    List.getLast?_concat, hp, if_true]

/-- On a non-terminal position whose selected move (the last of the list) is
    not PASS, rules_simulation plays it on its own board object and returns
    the recursion on that same object unchanged. -/
theorem rules_simulationF_play (cnts : PatternCounts) (fuel : Nat) (b : Board)
    (oc c : Color) (ms : List Move) (m : Move)
    (hterm : (b.check_game_end_gomoku).1 = false)
    (hms : (check_block_win cnts b (some c)).2 = ms ++ [m]) (hp : m ≠ PASS) :
    rules_simulationF cnts (fuel + 1) b oc c =
      rules_simulationF cnts fuel (play_move_gomoku m c b).2 oc c.opponent := by
  simp only [rules_simulationF, hterm, Bool.false_eq_true, if_false, hms,
    List.getLast?_concat, hp]

/-- C5: the per-ply behavior of the rule-guided playout on a non-terminal
    position: an empty classifier list gives one half; otherwise exactly the
    last element of the returned list is selected; a selected PASS gives one
    half; otherwise the move is applied and the recursive result is returned
    unchanged. -/
theorem rules_simulation_step_behavior (cnts : PatternCounts) (fuel : Nat)
    (b : Board) (oc c : Color)
    (hterm : (b.check_game_end_gomoku).1 = false) :
    ((check_block_win cnts b (some c)).2 = [] →
       rules_simulationF cnts (fuel + 1) b oc c = some (1/2, b)) ∧
    (∀ ms m, (check_block_win cnts b (some c)).2 = ms ++ [m] → m = PASS →
       rules_simulationF cnts (fuel + 1) b oc c = some (1/2, b)) ∧
    (∀ ms m, (check_block_win cnts b (some c)).2 = ms ++ [m] → m ≠ PASS →
       rules_simulationF cnts (fuel + 1) b oc c =
         rules_simulationF cnts fuel (play_move_gomoku m c b).2 oc
           c.opponent) :=
  ⟨fun hnil => rules_simulationF_empty cnts fuel b oc c hterm hnil,
   fun ms m hms hp => rules_simulationF_pass cnts fuel b oc c ms m hterm hms hp,
   fun ms m hms hp => rules_simulationF_play cnts fuel b oc c ms m hterm hms hp⟩

/-- Closed instance of the per-ply behavior on the board cbWin: the classifier
    returns Win with the single move 24, which is selected (as last element)
    and played in place. -/
theorem rules_simulation_step_behavior_witness :
    rules_simulationF cnts0 2 cbWin .black .black =
      rules_simulationF cnts0 1 (play_move_gomoku (some 24) .black cbWin).2
        .black Color.black.opponent :=
  (rules_simulation_step_behavior cnts0 1 cbWin .black .black
      (by decide)).2.2 [] (some 24) (by decide) (by decide)

/-- Every entry of the scan's four lists is a scanned candidate. -/
theorem check_block_win_scan_mem (cnts : PatternCounts) (b : Board) (c : Color)
    (x : Move) :
    ((x ∈ (check_block_win_scan cnts b c).win_moves →
        x ∈ generate_legal_moves_gomoku b) ∧
     (x ∈ (check_block_win_scan cnts b c).block_win_moves →
        x ∈ generate_legal_moves_gomoku b) ∧
     (x ∈ (check_block_win_scan cnts b c).open_four_moves →
        x ∈ generate_legal_moves_gomoku b) ∧
     (x ∈ (check_block_win_scan cnts b c).block_open_four_moves →
        x ∈ generate_legal_moves_gomoku b)) := by
  unfold check_block_win_scan
  obtain ⟨i1, i2, i3, i4⟩ := scan_foldl_mem cnts b c (cnts.block_win b c)
    (cnts.open_four b c) (cnts.block_open_four b c)
    (generate_legal_moves_gomoku b) scanInit x
  refine ⟨fun hx => ?_, fun hx => ?_, fun hx => ?_, fun hx => ?_⟩
  · rcases i1 hx with h | h
    · simp [scanInit] at h
    · exact h
  · rcases i2 hx with h | h
    · simp [scanInit] at h
    · exact h
  · rcases i3 hx with h | h
    · simp [scanInit] at h
    · exact h
  · rcases i4 hx with h | h
    · simp [scanInit] at h
    · exact h

/-- Every move returned by check_block_win is a legal move of the scanned
    position. -/
theorem check_block_win_subset (cnts : PatternCounts) (b : Board)
    (colorArg : Option Color) (m : Move)
    (hm : m ∈ (check_block_win cnts b colorArg).2) :
    m ∈ generate_legal_moves_gomoku b := by
  simp only [check_block_win] at hm
  split at hm
  · exact (check_block_win_scan_mem cnts b _ m).1 hm
  · split at hm
    · exact (check_block_win_scan_mem cnts b _ m).2.1 hm
    · split at hm
      · exact (check_block_win_scan_mem cnts b _ m).2.2.1 hm
      · split at hm
        · exact (check_block_win_scan_mem cnts b _ m).2.2.2 hm
        · exact hm

/-- C8: both playout variants terminate on every position: any fuel exceeding
    the number of empty cells suffices, because each recursive call plays a
    legal (empty-cell) move for a stone color and so strictly reduces the
    number of empty cells. -/
theorem simulations_terminate_within_empty_cells (cnts : PatternCounts) :
    ∀ (fuel : Nat) (b : Board) (oc c : Color) (ch : Board → Nat),
      c ≠ .empty → b.emptyCount < fuel →
      (random_simulationF fuel b oc c ch).isSome = true ∧
      (rules_simulationF cnts fuel b oc c).isSome = true := by
  intro fuel
  induction fuel with
  | zero => intro b oc c ch hc hlt; exact absurd hlt (by omega)
  | succ fuel ih =>
    intro b oc c ch hc hlt
    constructor
    · by_cases h1 : (b.check_game_end_gomoku).1 = true ∧
          (b.check_game_end_gomoku).2 = oc
      · simp [random_simulationF, h1]
      · simp only [random_simulationF, if_neg h1]
        by_cases h2 : generate_random_move_gomoku b ch = PASS
        · simp [h2]
        · rw [if_neg h2]
          have hmem := random_move_mem b ch h2
          have hlt2 : ((play_move_gomoku (generate_random_move_gomoku b ch) c
              b).2).emptyCount < fuel := by
            have := play_emptyCount_lt _ c b hmem hc
            omega
          have hrec := (ih ((play_move_gomoku
            (generate_random_move_gomoku b ch) c b).2) oc c.opponent ch
            (Color.opponent_ne_empty hc) hlt2).1
          obtain ⟨p, hp⟩ := Option.isSome_iff_exists.mp hrec
          obtain ⟨st, bf⟩ := p
          rw [hp]
          rfl
    · by_cases h1 : (b.check_game_end_gomoku).1 = true
      · simp only [rules_simulationF, h1, if_true]
        split <;> rfl
      · simp only [rules_simulationF, h1, Bool.false_eq_true, if_false]
        cases hlast : (check_block_win cnts b (some c)).2.getLast? with
        | none => simp [hlast]
        | some m =>
          simp only [hlast]
          by_cases hp : m = PASS
          · simp [hp]
          · rw [if_neg hp]
            have hmem := check_block_win_subset cnts b (some c) m
              (List.mem_of_getLast?_eq_some hlast)
            have hlt2 : ((play_move_gomoku m c b).2).emptyCount < fuel := by
              have := play_emptyCount_lt m c b hmem hc
              omega
            exact (ih ((play_move_gomoku m c b).2) oc c.opponent ch
              (Color.opponent_ne_empty hc) hlt2).2

/-- Closed instance of termination: three units of fuel settle both playouts
    from cbWin, which has two empty cells. -/
theorem simulations_terminate_within_empty_cells_witness :
    (random_simulationF 3 cbWin .black .black chFirst).isSome = true ∧
    (rules_simulationF cnts0 3 cbWin .black .black).isSome = true :=
  simulations_terminate_within_empty_cells cnts0 3 cbWin .black .black chFirst
    (by decide) (by decide)

/-- The board object handed to random_simulation comes back either untouched
    or with exactly the one chosen move played on it: the recursion operates
    on a copy. -/
theorem random_simulationF_final_board (fuel : Nat) (b : Board)
    (oc c : Color) (ch : Board → Nat) (st : Bool) (bf : Board)
    (h : random_simulationF fuel b oc c ch = some (st, bf)) :
    bf = b ∨ (generate_random_move_gomoku b ch ≠ PASS ∧
      bf = (play_move_gomoku (generate_random_move_gomoku b ch) c b).2) := by
  cases fuel with
  | zero => simp [random_simulationF] at h
  | succ fuel =>
    simp only [random_simulationF] at h
    split at h
    · exact Or.inl (Prod.mk.injEq .. ▸ (Option.some.inj h)).2.symm
    · split at h
      · exact Or.inl (Prod.mk.injEq .. ▸ (Option.some.inj h)).2.symm
      · rename_i hterm hpass
        cases hrec : random_simulationF fuel
            ((play_move_gomoku (generate_random_move_gomoku b ch) c b).2) oc
            c.opponent ch with
        | none => rw [hrec] at h; simp at h
        | some p =>
          rw [hrec] at h
          exact Or.inr ⟨hpass, ((Prod.mk.injEq .. ▸
            (Option.some.inj h)).2).symm⟩

/-- rules_simulation never retracts a move: its final board has at most as
    many empty cells as the board it was handed. -/
theorem rules_simulationF_final_emptyCount (cnts : PatternCounts) :
    ∀ (fuel : Nat) (b : Board) (oc c : Color) (r : Rat) (bf : Board),
      rules_simulationF cnts fuel b oc c = some (r, bf) →
      bf.emptyCount ≤ b.emptyCount := by
  intro fuel
  induction fuel with
  | zero => intro b oc c r bf h; simp [rules_simulationF] at h
  | succ fuel ih =>
    intro b oc c r bf h
    simp only [rules_simulationF] at h
    split at h
    · split at h
      · simp only [Option.some.injEq, Prod.mk.injEq] at h
        rw [← h.2]
      · simp only [Option.some.injEq, Prod.mk.injEq] at h
        rw [← h.2]
    · cases hlast : (check_block_win cnts b (some c)).2.getLast? with
      | none =>
        rw [hlast] at h
        simp only [Option.some.injEq, Prod.mk.injEq] at h
        rw [← h.2]
      | some m =>
        rw [hlast] at h
        simp only at h
        split at h
        · simp only [Option.some.injEq, Prod.mk.injEq] at h
          rw [← h.2]
        · exact le_trans (ih _ oc c.opponent r bf h)
            (play_emptyCount_le m c b)

/-- C9: the frame effects of the two playouts on the board object they are
    handed.  random_simulation recurses on a copy, so its caller's object ends
    with at most the one chosen move applied; rules_simulation plays the
    selected move on the caller's object itself and recurses without
    duplicating and without undoing, so the caller's final board is whatever
    the recursion ends with, and moves are only ever added to it. -/
theorem simulation_frame_effects :
    (∀ (fuel : Nat) (b : Board) (oc c : Color) (ch : Board → Nat) (st : Bool)
       (bf : Board), random_simulationF fuel b oc c ch = some (st, bf) →
       bf = b ∨ (generate_random_move_gomoku b ch ≠ PASS ∧
         bf = (play_move_gomoku (generate_random_move_gomoku b ch) c b).2)) ∧
    (∀ (cnts : PatternCounts) (fuel : Nat) (b : Board) (oc c : Color)
       (ms : List Move) (m : Move), (b.check_game_end_gomoku).1 = false →
       (check_block_win cnts b (some c)).2 = ms ++ [m] → m ≠ PASS →
       rules_simulationF cnts (fuel + 1) b oc c =
         rules_simulationF cnts fuel (play_move_gomoku m c b).2 oc
           c.opponent) ∧
    (∀ (cnts : PatternCounts) (fuel : Nat) (b : Board) (oc c : Color)
       (r : Rat) (bf : Board), rules_simulationF cnts fuel b oc c =
         some (r, bf) → bf.emptyCount ≤ b.emptyCount) :=
  ⟨fun fuel b oc c ch st bf h =>
      random_simulationF_final_board fuel b oc c ch st bf h,
   fun cnts fuel b oc c ms m hterm hms hp =>
      rules_simulationF_play cnts fuel b oc c ms m hterm hms hp,
   fun cnts fuel b oc c r bf h =>
      rules_simulationF_final_emptyCount cnts fuel b oc c r bf h⟩

/-- Closed instance of the frame property: the board object passed to the
    concrete terminal-position run of random_simulation comes back either
    untouched or with exactly the one chosen move applied. -/
theorem simulation_frame_effects_witness :
    (play_move_gomoku (some 24) .white cbTerm).2 = cbTerm ∨
      (generate_random_move_gomoku cbTerm chFirst ≠ PASS ∧
        (play_move_gomoku (some 24) .white cbTerm).2 =
          (play_move_gomoku (generate_random_move_gomoku cbTerm chFirst)
            .white cbTerm).2) :=
  simulation_frame_effects.1 2 cbTerm .white .white chFirst true
    ((play_move_gomoku (some 24) .white cbTerm).2) (by decide)

/-- The strict-improvement fold keeps the earliest maximum: its result beats
    the seed, bounds every scanned candidate, and, unless it is the seed
    itself, it sits in the scanned list with every earlier candidate strictly
    below it. -/
theorem firstMaxAux_spec (rate : Move → Rat) :
    ∀ (l : List Move) (best : Move),
      rate best ≤ rate (firstMaxAux rate best l) ∧
      (∀ m ∈ l, rate m ≤ rate (firstMaxAux rate best l)) ∧
      (firstMaxAux rate best l = best ∨
        ∃ u1 u2, l = u1 ++ firstMaxAux rate best l :: u2 ∧
          rate best < rate (firstMaxAux rate best l) ∧
          ∀ m ∈ u1, rate m < rate (firstMaxAux rate best l)) := by
  intro l
  induction l with
  | nil =>
    intro best
    exact ⟨le_refl _, by simp, Or.inl rfl⟩
  | cons a t ih =>
    intro best
    by_cases hab : rate best < rate a
    · have hfold : firstMaxAux rate best (a :: t) = firstMaxAux rate a t := by
        unfold firstMaxAux
        simp only [List.foldl_cons]
        rw [if_pos hab]
      obtain ⟨h1, h2, h3⟩ := ih a
      rw [hfold]
      refine ⟨le_of_lt (lt_of_lt_of_le hab h1), ?_, ?_⟩
      · intro m hm
        rcases List.mem_cons.mp hm with rfl | hmt
        · exact h1
        · exact h2 m hmt
      · rcases h3 with heq | ⟨u1, u2, hu, hblt, hall⟩
        · right
          refine ⟨[], t, ?_, ?_, by simp⟩
          · rw [heq]; rfl
          · rw [heq]; exact hab
        · right
          refine ⟨a :: u1, u2, ?_, lt_trans hab hblt, ?_⟩
          · rw [List.cons_append, ← hu]
          · intro m hm
            rcases List.mem_cons.mp hm with rfl | hmu
            · exact hblt
            · exact hall m hmu
    · have hfold : firstMaxAux rate best (a :: t) =
          firstMaxAux rate best t := by
        unfold firstMaxAux
        simp only [List.foldl_cons]
        rw [if_neg hab]
      obtain ⟨h1, h2, h3⟩ := ih best
      rw [hfold]
      refine ⟨h1, ?_, ?_⟩
      · intro m hm
        rcases List.mem_cons.mp hm with rfl | hmt
        · exact le_trans (not_lt.mp hab) h1
        · exact h2 m hmt
      · rcases h3 with heq | ⟨u1, u2, hu, hblt, hall⟩
        · exact Or.inl heq
        · right
          refine ⟨a :: u1, u2, ?_, hblt, ?_⟩
          · rw [List.cons_append, ← hu]
          · intro m hm
            rcases List.mem_cons.mp hm with rfl | hmu
            · exact lt_of_le_of_lt (not_lt.mp hab) hblt
            · exact hall m hmu

/-- Once the running best is a real candidate with its own rate as best_ratio,
    the selection fold of genmove_cmd is the strict-improvement fold. -/
theorem selectBest_fold (rate : Move → Rat) :
    ∀ (t : List Move) (x : Move),
      t.foldl
        (fun (acc : Option Move × Rat) m =>
          if acc.2 < rate m then (some m, rate m)
          else (if acc.1 = none then some m else acc.1, acc.2))
        (some x, rate x) =
      (some (firstMaxAux rate x t), rate (firstMaxAux rate x t)) := by
  intro t
  induction t with
  | nil => intro x; simp [firstMaxAux]
  | cons a t ih =>
    intro x
    simp only [List.foldl_cons]
    by_cases hlt : rate x < rate a
    · rw [if_pos hlt]
      have hmax : firstMaxAux rate x (a :: t) = firstMaxAux rate a t := by
        unfold firstMaxAux
        simp only [List.foldl_cons]
        rw [if_pos hlt]
      rw [hmax]
      exact ih a
    · rw [if_neg hlt,
        if_neg (show ¬(some x : Option Move) = none by simp)]
      have hmax : firstMaxAux rate x (a :: t) = firstMaxAux rate x t := by
        unfold firstMaxAux
        simp only [List.foldl_cons]
        rw [if_neg hlt]
      rw [hmax]
      exact ih x

/-- C6: the tie-break of genmove_cmd's candidate loop (both policies fold with
    selectBest): a candidate replaces the current best only on a strictly
    greater win rate, so the chosen candidate is the earliest one attaining
    the maximum rate, and the first candidate is the default best. -/
theorem select_best_keeps_earliest_maximum (moves : List Move)
    (rate : Move → Rat) (m0 : Move) (ms : List Move)
    (hmoves : moves = m0 :: ms) (hpos : ∀ m ∈ moves, 0 ≤ rate m) :
    ∃ best u1 u2, (selectBest moves rate).1 = some best ∧
      moves = u1 ++ best :: u2 ∧
      (∀ m ∈ u1, rate m < rate best) ∧
      (∀ m ∈ moves, rate m ≤ rate best) := by
  subst hmoves
  have hsel : selectBest (m0 :: ms) rate =
      (some (firstMaxAux rate m0 ms), rate (firstMaxAux rate m0 ms)) := by
    unfold selectBest
    simp only [List.foldl_cons]
    by_cases h0 : (0 : Rat) < rate m0
    · rw [if_pos h0]
      exact selectBest_fold rate ms m0
    · have hz : rate m0 = 0 :=
        le_antisymm (not_lt.mp h0) (hpos m0 (by simp))
      rw [if_neg h0, if_pos trivial, ← hz]
      exact selectBest_fold rate ms m0
  obtain ⟨h1, h2, h3⟩ := firstMaxAux_spec rate ms m0
  rcases h3 with heq | ⟨u1, u2, hu, hblt, hall⟩
  · refine ⟨firstMaxAux rate m0 ms, [], ms, by rw [hsel], ?_, by simp, ?_⟩
    · rw [heq]
      rfl
    · intro m hm
      rcases List.mem_cons.mp hm with rfl | hmt
      · exact h1
      · exact h2 m hmt
  · refine ⟨firstMaxAux rate m0 ms, m0 :: u1, u2, by rw [hsel], ?_, ?_, ?_⟩
    · rw [List.cons_append, ← hu]
    · intro m hm
      rcases List.mem_cons.mp hm with rfl | hmu
      · exact hblt
      · exact hall m hmu
    · intro m hm
      rcases List.mem_cons.mp hm with rfl | hmt
      · exact h1
      · exact h2 m hmt

/-- Closed instance of the tie-break property: with all rates equal, the fold
    keeps the first candidate. -/
theorem select_best_keeps_earliest_maximum_witness :
    ∃ best u1 u2,
      (selectBest [some 0, some 24] (fun _ => 1/2)).1 = some best ∧
      [some 0, some 24] = u1 ++ best :: u2 ∧
      (∀ m ∈ u1, (fun (_ : Move) => (1 : Rat)/2) m <
        (fun (_ : Move) => (1 : Rat)/2) best) ∧
      (∀ m ∈ [some 0, some 24], (fun (_ : Move) => (1 : Rat)/2) m ≤
        (fun (_ : Move) => (1 : Rat)/2) best) :=
  select_best_keeps_earliest_maximum [some 0, some 24] (fun _ => 1/2)
    (some 0) [some 24] rfl (by intro m hm; norm_num)

/-- C7: Gomoku3.simulate returns the caller's position exactly as it was: the
    committed candidate is undone and no residual simulation state remains,
    provided the board's own rollout only appends moves to the history (the
    rewind contract of the spec). -/
theorem simulate_restores_position (n : Nat) (simFn : GoState → Nat × GoState)
    (state : GoState) (move : Nat)
    (h : ∀ t : GoState, ∃ ext : List Nat,
      (simFn t).2 = { history := t.history ++ ext,
                      toPlayFirst := t.toPlayFirst }) :
    (Gomoku3.simulate n simFn state move).1 = state := by
  have key : ∀ (l : List Nat) (acc : List Nat × GoState),
      acc.2 = state.play move →
      (l.foldl
        (fun (acc : List Nat × GoState) _ =>
          ((acc.1.set (simFn acc.2).1 (acc.1.getD (simFn acc.2).1 0 + 1)),
            ((simFn acc.2).2).resetToMoveNumber
              ((state.play move).moveNumber))) acc).2 =
        state.play move := by
    intro l
    induction l with
    | nil => intro acc hacc; exact hacc
    | cons a t ih =>
      intro acc hacc
      simp only [List.foldl_cons]
      apply ih
      show ((simFn acc.2).2).resetToMoveNumber ((state.play move).moveNumber) =
        state.play move
      obtain ⟨ext, hext⟩ := h acc.2
      rw [hext, hacc]
      unfold GoState.resetToMoveNumber GoState.moveNumber GoState.play
      simp only []
      rw [List.take_left' (by simp)]
  unfold Gomoku3.simulate
  dsimp only
  rw [key (List.range n) ([0, 0, 0], state.play move) rfl]
  unfold GoState.undoMove GoState.play
  simp [List.dropLast_concat]

/-- Closed instance of the restore property with a three-trial evaluation and
    a rollout that appends one move. -/
theorem simulate_restores_position_witness :
    (Gomoku3.simulate 3 simFnW { history := [5], toPlayFirst := 1 } 7).1 =
      { history := [5], toPlayFirst := 1 } :=
  simulate_restores_position 3 simFnW { history := [5], toPlayFirst := 1 } 7
    (fun t => ⟨[9], rfl⟩)

/-- C1: the random policy of genmove_cmd runs its ten playouts from a copy of
    the root position without the candidate move applied and with the acting
    color still to move.  On cbWin the immediately winning candidate 24 scores
    0 wins - identically to candidate 0 - while the spec-mandated pre-applied
    playouts score it 10 out of 10. -/
theorem genmove_random_policy_ignores_candidate :
    randomPolicyWins cbWin .black (some 24) chTen = 0 ∧
    randomPolicyWinsSpec cbWin .black (some 24) chTen = 10 ∧
    randomPolicyWins cbWin .black (some 24) chTen =
      randomPolicyWins cbWin .black (some 0) chTen ∧
    (play_move_gomoku (some 24) .black cbWin).2.check_game_end_gomoku =
      (true, .black) ∧
    some 24 ∈ generate_legal_moves_gomoku cbWin :=
  ⟨by decide, by decide, rfl, by decide, by decide⟩

/-- C2: on the terminal position cbTerm (Black has five in a row, so the
    winner is not the original color White), random_simulation does not return
    immediately: one unit of fuel is not enough (the call recurses), and with
    two units it plays point 24 on the terminal position and returns true,
    where the claim requires an immediate false with no move generation. -/
theorem random_simulation_plays_on_terminal_position :
    cbTerm.check_game_end_gomoku = (true, .black) ∧
    random_simulationF 1 cbTerm .white .white chFirst = none ∧
    random_simulationF 2 cbTerm .white .white chFirst =
      some (true, (play_move_gomoku (some 24) .white cbTerm).2) :=
  ⟨by decide, by decide, by decide⟩

/-- C10: genmove on an instance of Gomoku3 as the class defines it is not
    total: its first statement already raises AttributeError (the class
    defines neither check_game_end_gomoku nor board), and the attribute
    numSimulations read by the evaluation path is not defined either. -/
theorem gomoku3_genmove_attribute_error :
    Gomoku3.genmove = Except.error "AttributeError: check_game_end_gomoku" ∧
    gomoku3ClassAttrs.contains "numSimulations" = false ∧
    gomoku3ClassAttrs.contains "board" = false ∧
    gomoku3ClassAttrs.contains "check_game_end_gomoku" = false :=
  ⟨rfl, by decide, by decide, by decide⟩
